import Mathlib

/-!
Formal model of the universal multiplayer relay server
(`universal-server.js`): the session directory (`gameRooms`,
`activePlayers`), the relay broadcasts (`stateUpdate`, `gameEvent`), the
join / disconnect cascades and the periodic inactivity sweeps, together
with theorems about routing and bookkeeping behaviour.

Modelling conventions:
* JavaScript objects used as string-keyed dictionaries become association
  lists in insertion order: assignment to an existing key keeps its
  position, a fresh key is appended, matching `Object.keys` /
  `Object.entries` enumeration order.
* Timestamps (`Date.now()`) are passed in explicitly as naturals.
* The read-only `serverStats` telemetry counters are omitted (the spec
  marks them as non-core telemetry).
* Socket.io room subscriptions are the `subs` field: `socket.join(r)`
  appends `r` to the socket's subscription list, `socket.to(r)` reaches
  every subscribed socket except the sender, and `io.to(r)` reaches every
  subscribed socket.  A socket is connected iff it has a `subs` entry.
* Every server-to-client emission is a `Msg` value carrying its target
  socket, so one socket.io broadcast appears as one message per recipient.
-/

namespace UniversalServer

/-- First-match lookup in an association list (JS property read). -/
def lookupA {α : Type} : List (String × α) → String → Option α
  | [], _ => none
  | (k, v) :: rest, key => if k = key then some v else lookupA rest key

/-- JS property write: replace the value at an existing key in place,
append the pair when the key is fresh. -/
def insertA {α : Type} : List (String × α) → String → α → List (String × α)
  | [], key, val => [(key, val)]
  | (k, v) :: rest, key, val =>
    if k = key then (k, val) :: rest else (k, v) :: insertA rest key val

/-- JS `delete o[key]`: drop the (first) entry at `key`. -/
def eraseA {α : Type} : List (String × α) → String → List (String × α)
  | [], _ => []
  | (k, v) :: rest, key => if k = key then rest else (k, v) :: eraseA rest key

/-- Update the value at `key` when present, leave the list unchanged
otherwise. -/
def modifyA {α : Type} : List (String × α) → String → (α → α) → List (String × α)
  | [], _, _ => []
  | (k, v) :: rest, key, f =>
    if k = key then (k, f v) :: rest else (k, v) :: modifyA rest key f

/-- The keys of an association list, in enumeration order. -/
def keysA {α : Type} (l : List (String × α)) : List String :=
  l.map (fun kv => kv.1)

/-- Values carried by client payload attribute maps. -/
inductive Val : Type where
  | str : String → Val
  | nat : Nat → Val
  deriving DecidableEq, Repr

/-- A JS payload object: an open attribute map. -/
abbrev Obj : Type := List (String × Val)

/-- JS object spread `\x7b...a, ...b\x7d`: fold the entries of `b` over `a`,
later writes per key winning. -/
def mergeObj (a b : Obj) : Obj :=
  b.foldl (fun acc kv => insertA acc kv.1 kv.2) a

/-- `activePlayers[id]` record (`universal-server.js` lines 83-89). -/
structure ActivePlayer : Type where
  id : String
  roomId : Option String
  gameId : Option String
  joinedAt : Nat
  lastActivity : Nat
  deriving DecidableEq, Repr

/-- A room record (`universal-server.js` lines 119-125); `players` maps
socket id to that player's stored snapshot. -/
structure Room : Type where
  roomId : String
  gameId : String
  players : List (String × Obj)
  createdAt : Nat
  lastActivity : Nat
  deriving DecidableEq, Repr

/-- Whole-server state: `gameRooms` (gameId → roomId → Room),
`activePlayers`, and socket.io room subscriptions per connected socket. -/
structure ServerState : Type where
  gameRooms : List (String × List (String × Room))
  activePlayers : List (String × ActivePlayer)
  subs : List (String × List String)
  deriving DecidableEq, Repr

/-- One server-to-client emission; `target` is the receiving socket. -/
inductive Msg : Type where
  | roomJoined (target roomId gameId playerId : String) (playerCount : Nat)
  | playerJoined (target id : String) (playerData : Obj)
  | playerLeft (target id : String) (timestamp : Nat)
  | stateUpdateMsg (target id : String) (state : Obj) (timestamp : Nat)
  | gameEventMsg (target id eventType : String) (eventData : Obj) (timestamp : Nat)
  | roomClosed (target reason roomId : String)
  deriving DecidableEq, Repr

/-- The receiving socket of a message. -/
def Msg.target : Msg → String
  | .roomJoined t _ _ _ _ => t
  | .playerJoined t _ _ => t
  | .playerLeft t _ _ => t
  | .stateUpdateMsg t _ _ _ => t
  | .gameEventMsg t _ _ _ _ => t
  | .roomClosed t _ _ => t

/-- The sockets currently subscribed to room `r` (socket.io's broadcast
group for `r`), in connection order. -/
def broadcastGroup (s : ServerState) (r : String) : List String :=
  (s.subs.filter (fun kv => kv.2.contains r)).map (fun kv => kv.1)

/-- The room stored under `(gid, rid)`, if any. -/
def lookupRoom (s : ServerState) (gid rid : String) : Option Room :=
  match lookupA s.gameRooms gid with
  | none => none
  | some cat => lookupA cat rid

/-- The member snapshots of room `(gid, rid)` (empty when the room is
missing). -/
def roomPlayers (s : ServerState) (gid rid : String) : List (String × Obj) :=
  match lookupRoom s gid rid with
  | none => []
  | some room => room.players

/-- The stored snapshot of member `sock` in room `(gid, rid)`. -/
def storedSnap (s : ServerState) (gid rid sock : String) : Option Obj :=
  lookupA (roomPlayers s gid rid) sock

/-- The `lastActivity` stamp of room `(gid, rid)`. -/
def roomLastActivity (s : ServerState) (gid rid : String) : Option Nat :=
  match lookupRoom s gid rid with
  | none => none
  | some room => some room.lastActivity

/-- `io.on('connection')` (lines 71-89): register the ActivePlayer record
and the (empty) subscription entry for the fresh socket. -/
def connect (s : ServerState) (sock : String) (now : Nat) : ServerState :=
  { s with
    activePlayers := insertA s.activePlayers sock
      { id := sock, roomId := none, gameId := none,
        joinedAt := now, lastActivity := now },
    subs := insertA s.subs sock [] }

/-- `socket.on('joinGame')` (lines 92-172).  `genId` is the value
`generateRoomId()` would return, supplied by the environment; a missing or
empty (falsy) `roomId` selects it.  Returns the new state and the emitted
messages: the `roomJoined` ack, one `playerJoined` per other subscriber of
the room, and the backfill `playerJoined` per stored member other than the
joiner. -/
def joinGame (s : ServerState) (sock gameId : String) (roomId : Option String)
    (playerData : Obj) (genId : String) (now : Nat) : ServerState × List Msg :=
  let targetRoomId :=
    match roomId with
    | none => genId
    | some r => if r = "" then genId else r
  let cat :=
    match lookupA s.gameRooms gameId with
    | none => []
    | some c => c
  let room :=
    match lookupA cat targetRoomId with
    | none =>
      { roomId := targetRoomId, gameId := gameId, players := [],
        createdAt := now, lastActivity := now : Room }
    | some r => r
  let snap : Obj :=
    mergeObj [("id", Val.str sock), ("joinedAt", Val.nat now),
              ("lastActivity", Val.nat now)] playerData
  let room2 := { room with players := insertA room.players sock snap }
  let s2 : ServerState :=
    { gameRooms := insertA s.gameRooms gameId (insertA cat targetRoomId room2),
      activePlayers := modifyA s.activePlayers sock
        (fun p => { p with roomId := some targetRoomId, gameId := some gameId }),
      subs := modifyA s.subs sock
        (fun rs => if rs.contains targetRoomId then rs else rs ++ [targetRoomId]) }
  let others := (broadcastGroup s2 targetRoomId).filter (fun t => t != sock)
  let msgs :=
    Msg.roomJoined sock targetRoomId gameId sock room2.players.length
      :: (others.map (fun t => Msg.playerJoined t sock playerData)
          ++ (room2.players.filter (fun kv => kv.1 != sock)).map
              (fun kv => Msg.playerJoined sock kv.1 kv.2))
  (s2, msgs)

/-- `socket.on('stateUpdate')` (lines 175-206): drop unless the sender has
a recorded (truthy) room; bump the sender's activity stamp; when the
caller-supplied `roomId` names a room in the sender's game, bump its stamp
and, when the sender is stored there, spread `state` over the stored
snapshot with a fresh `lastActivity`; broadcast to every other subscriber
of the caller-supplied room. -/
def stateUpdate (s : ServerState) (sock roomId : String) (state : Obj)
    (now : Nat) : ServerState × List Msg :=
  match lookupA s.activePlayers sock with
  | none => (s, [])
  | some p =>
    match p.roomId with
    | none => (s, [])
    | some pr =>
      if pr = "" then (s, [])
      else
        let activePlayers := modifyA s.activePlayers sock
          (fun q => { q with lastActivity := now })
        let gameRooms :=
          match p.gameId with
          | none => s.gameRooms
          | some gid =>
            match lookupA s.gameRooms gid with
            | none => s.gameRooms
            | some cat =>
              match lookupA cat roomId with
              | none => s.gameRooms
              | some room =>
                let room2 :=
                  match lookupA room.players sock with
                  | none => { room with lastActivity := now }
                  | some snap =>
                    { room with
                      lastActivity := now,
                      players := insertA room.players sock
                        (insertA (mergeObj snap state) "lastActivity" (Val.nat now)) }
                insertA s.gameRooms gid (insertA cat roomId room2)
        ({ s with activePlayers := activePlayers, gameRooms := gameRooms },
         ((broadcastGroup s roomId).filter (fun t => t != sock)).map
           (fun t => Msg.stateUpdateMsg t sock state now))

/-- `socket.on('gameEvent')` (lines 209-234): drop unless the sender has a
recorded room; bump the sender's activity stamp; broadcast to every
subscriber of the caller-supplied room, the sender included. -/
def gameEvent (s : ServerState) (sock roomId eventType : String)
    (eventData : Obj) (now : Nat) : ServerState × List Msg :=
  match lookupA s.activePlayers sock with
  | none => (s, [])
  | some p =>
    match p.roomId with
    | none => (s, [])
    | some pr =>
      if pr = "" then (s, [])
      else
        let activePlayers := modifyA s.activePlayers sock
          (fun q => { q with lastActivity := now })
        ({ s with activePlayers := activePlayers },
         (broadcastGroup s roomId).map
           (fun t => Msg.gameEventMsg t sock eventType eventData now))

/-- `socket.on('disconnect')` (lines 237-275): when the player held a
(truthy) room and game, remove it from the room, notify the remaining
subscribers (`playerLeft`), delete the room when it emptied and the
category when it then has no rooms; finally drop the ActivePlayer record
and the socket's subscriptions. -/
def disconnect (s : ServerState) (sock : String) (now : Nat) :
    ServerState × List Msg :=
  let step :=
    match lookupA s.activePlayers sock with
    | none => (s, ([] : List Msg))
    | some p =>
      match p.roomId, p.gameId with
      | some rid, some gid =>
        if rid = "" ∨ gid = "" then (s, [])
        else
          match lookupA s.gameRooms gid with
          | none => (s, [])
          | some cat =>
            match lookupA cat rid with
            | none => (s, [])
            | some room =>
              let players := eraseA room.players sock
              let msgs := ((broadcastGroup s rid).filter (fun t => t != sock)).map
                (fun t => Msg.playerLeft t sock now)
              let gameRooms :=
                if players.isEmpty then
                  let cat2 := eraseA cat rid
                  if cat2.isEmpty then eraseA s.gameRooms gid
                  else insertA s.gameRooms gid cat2
                else insertA s.gameRooms gid
                  (insertA cat rid { room with players := players })
              ({ s with gameRooms := gameRooms }, msgs)
      | _, _ => (s, [])
  ({ step.1 with
      activePlayers := eraseA step.1.activePlayers sock,
      subs := eraseA step.1.subs sock },
   step.2)

/-- `INACTIVITY_TIMEOUT` (line 308), in milliseconds. -/
def inactivityTimeout : Nat := 30 * 60 * 1000

/-- One step of the player sweep (lines 316-328) at snapshotted key `id`:
a stale player's socket is force-disconnected when connected, and the bare
record is deleted otherwise. -/
def playerSweepStep (now : Nat) (acc : ServerState × List Msg) (id : String) :
    ServerState × List Msg :=
  match lookupA acc.1.activePlayers id with
  | none => acc
  | some p =>
    if now - p.lastActivity > inactivityTimeout then
      if (lookupA acc.1.subs id).isSome then
        let r := disconnect acc.1 id now
        (r.1, acc.2 ++ r.2)
      else
        ({ acc.1 with activePlayers := eraseA acc.1.activePlayers id }, acc.2)
    else acc

/-- The player sweep: iterate `playerSweepStep` over the snapshot of
`Object.keys(activePlayers)`. -/
def playerSweep (s : ServerState) (now : Nat) : ServerState × List Msg :=
  (keysA s.activePlayers).foldl (playerSweepStep now) (s, [])

/-- One step of the room sweep (lines 331-345) for room `rid` of game
`gid`: a stale room is announced (`roomClosed` to every subscriber) and
deleted. -/
def roomSweepRoomStep (now : Nat) (gid : String) (acc : ServerState × List Msg)
    (rid : String) : ServerState × List Msg :=
  match lookupA acc.1.gameRooms gid with
  | none => acc
  | some cat =>
    match lookupA cat rid with
    | none => acc
    | some room =>
      if now - room.lastActivity > inactivityTimeout then
        (({ acc.1 with gameRooms := insertA acc.1.gameRooms gid (eraseA cat rid) }),
         acc.2 ++ (broadcastGroup acc.1 rid).map
           (fun t => Msg.roomClosed t "inactivity" rid))
      else acc

/-- The snapshot `Object.keys(gameRooms[gameId])` taken before the inner
loop of the room sweep (line 332). -/
def roomIdsOf (acc : ServerState × List Msg) (gid : String) : List String :=
  match lookupA acc.1.gameRooms gid with
  | none => []
  | some cat => keysA cat

/-- After sweeping a game's rooms, delete the category when it has no
rooms left (lines 349-352). -/
def categoryCleanup (gid : String) (acc : ServerState × List Msg) :
    ServerState × List Msg :=
  match lookupA acc.1.gameRooms gid with
  | none => acc
  | some cat =>
    if cat.isEmpty then
      ({ acc.1 with gameRooms := eraseA acc.1.gameRooms gid }, acc.2)
    else acc

/-- The room sweep for one game (lines 332-352): sweep the snapshot of the
game's room keys, then delete the category when it has no rooms left. -/
def roomSweepGameStep (now : Nat) (acc : ServerState × List Msg) (gid : String) :
    ServerState × List Msg :=
  categoryCleanup gid ((roomIdsOf acc gid).foldl (roomSweepRoomStep now gid) acc)

/-- The room sweep (lines 331-353): iterate over the snapshot of
`Object.keys(gameRooms)`. -/
def roomSweep (s : ServerState) (now : Nat) : ServerState × List Msg :=
  (keysA s.gameRooms).foldl (roomSweepGameStep now) (s, [])

/-- The exact base-36 fractional expansion of the dyadic rational
`m / 2 ^ k` (most significant digit first), with enough fuel: the
expansion of a dyadic terminates within `k` digits. -/
def frac36 : Nat → Nat → Nat → List Nat
  | 0, _, _ => []
  | fuel + 1, m, k =>
    if m = 0 then []
    else (m * 36) / 2 ^ k :: frac36 fuel ((m * 36) % 2 ^ k) k

/-- Lower-case base-36 digit character, as produced by JS
`Number.prototype.toString(36)`. -/
def char36 (d : Nat) : Char :=
  if d < 10 then Char.ofNat (48 + d) else Char.ofNat (97 + (d - 10))

/-- `generateRoomId` (lines 57-59):
`Math.random().toString(36).substring(2, 8).toUpperCase()`.  The random
double in `[0, 1)` is the dyadic rational `m / 2 ^ k` (`m < 2 ^ k`);
`toString(36)` renders `"0."` followed by its base-36 fractional digits
(just `"0"` for zero), `substring(2, 8)` keeps the first six fractional
digits — fewer when the expansion is shorter — and the result is
upper-cased. -/
def generateRoomId (m k : Nat) : String :=
  String.mk (((frac36 k m k).take 6).map (fun d => (char36 d).toUpper))

/-! ### Association-list lemmas -/

theorem lookupA_insertA_self {α : Type} (l : List (String × α)) (k : String)
    (v : α) : lookupA (insertA l k v) k = some v := by
  induction l with
  | nil => simp [insertA, lookupA]
  | cons hd tl ih =>
    obtain ⟨k0, v0⟩ := hd
    by_cases h : k0 = k <;> simp [insertA, lookupA, h, ih]

theorem lookupA_insertA_ne {α : Type} (l : List (String × α)) {k k2 : String}
    (v : α) (h : k2 ≠ k) : lookupA (insertA l k v) k2 = lookupA l k2 := by
  have hks : ¬ k = k2 := fun hh => h hh.symm
  induction l with
  | nil => simp [insertA, lookupA, hks]
  | cons hd tl ih =>
    obtain ⟨k0, v0⟩ := hd
    by_cases h0 : k0 = k
    · subst h0
      simp [insertA, lookupA, hks]
    · simp [insertA, lookupA, h0, ih]

theorem lookupA_eraseA_ne {α : Type} (l : List (String × α)) {k k2 : String}
    (h : k2 ≠ k) : lookupA (eraseA l k) k2 = lookupA l k2 := by
  have hks : ¬ k = k2 := fun hh => h hh.symm
  induction l with
  | nil => simp [eraseA]
  | cons hd tl ih =>
    obtain ⟨k0, v0⟩ := hd
    by_cases h0 : k0 = k
    · subst h0
      simp [eraseA, lookupA, hks]
    · simp [eraseA, lookupA, h0, ih]

@[simp] theorem keysA_nil {α : Type} : keysA ([] : List (String × α)) = [] := rfl

@[simp] theorem keysA_cons {α : Type} (k : String) (v : α)
    (tl : List (String × α)) : keysA ((k, v) :: tl) = k :: keysA tl := rfl

theorem keysA_append {α : Type} (a b : List (String × α)) :
    keysA (a ++ b) = keysA a ++ keysA b := by
  simp [keysA]

theorem lookupA_eq_none_iff {α : Type} (l : List (String × α)) (k : String) :
    lookupA l k = none ↔ k ∉ keysA l := by
  induction l with
  | nil => simp [lookupA]
  | cons hd tl ih =>
    obtain ⟨k0, v0⟩ := hd
    by_cases h0 : k0 = k
    · subst h0
      simp [lookupA]
    · rw [keysA_cons]
      simp only [List.mem_cons, not_or]
      rw [lookupA, if_neg h0, ih]
      constructor
      · intro hh
        exact ⟨fun hc => h0 hc.symm, hh⟩
      · intro hh
        exact hh.2

theorem mem_of_lookupA {α : Type} {l : List (String × α)} {k : String} {v : α}
    (h : lookupA l k = some v) : (k, v) ∈ l := by
  induction l with
  | nil => simp [lookupA] at h
  | cons hd tl ih =>
    obtain ⟨k0, v0⟩ := hd
    by_cases h0 : k0 = k
    · subst h0
      simp [lookupA] at h
      simp [h]
    · simp [lookupA, h0] at h
      simp [ih h]

theorem insertA_of_not_mem {α : Type} {l : List (String × α)} {k : String}
    (v : α) (h : k ∉ keysA l) : insertA l k v = l ++ [(k, v)] := by
  induction l with
  | nil => simp [insertA]
  | cons hd tl ih =>
    obtain ⟨k0, v0⟩ := hd
    rw [keysA_cons] at h
    simp only [List.mem_cons, not_or] at h
    have h0 : ¬ k0 = k := fun hh => h.1 hh.symm
    simp [insertA, h0, ih h.2]

theorem keysA_insertA_of_mem {α : Type} {l : List (String × α)} {k : String}
    (v : α) (h : k ∈ keysA l) : keysA (insertA l k v) = keysA l := by
  induction l with
  | nil => simp at h
  | cons hd tl ih =>
    obtain ⟨k0, v0⟩ := hd
    by_cases h0 : k0 = k
    · simp [insertA, h0]
    · rw [keysA_cons, List.mem_cons] at h
      rcases h with h | h
      · exact absurd h.symm h0
      · simp [insertA, h0, ih h]

theorem eraseA_sublist {α : Type} (l : List (String × α)) (k : String) :
    (eraseA l k).Sublist l := by
  induction l with
  | nil => simp [eraseA]
  | cons hd tl ih =>
    obtain ⟨k0, v0⟩ := hd
    by_cases h0 : k0 = k
    · rw [eraseA, if_pos h0]
      exact List.sublist_cons_self _ _
    · rw [eraseA, if_neg h0]
      exact List.Sublist.cons₂ _ ih

theorem mem_of_mem_eraseA {α : Type} {l : List (String × α)} {k : String}
    {x : String × α} (h : x ∈ eraseA l k) : x ∈ l :=
  (eraseA_sublist l k).mem h

theorem mem_insertA {α : Type} {l : List (String × α)} {k : String} {v : α}
    {x : String × α} (h : x ∈ insertA l k v) : x ∈ l ∨ x = (k, v) := by
  induction l with
  | nil =>
    rw [insertA] at h
    right
    simpa using h
  | cons hd tl ih =>
    obtain ⟨k0, v0⟩ := hd
    by_cases h0 : k0 = k
    · subst h0
      rw [insertA, if_pos rfl] at h
      rcases List.mem_cons.1 h with h | h
      · right; exact h
      · left; exact List.mem_cons_of_mem _ h
    · rw [insertA, if_neg h0] at h
      rcases List.mem_cons.1 h with h | h
      · left; simp [h]
      · rcases ih h with hh | hh
        · left; exact List.mem_cons_of_mem _ hh
        · right; exact hh

theorem nodup_keysA_insertA {α : Type} {l : List (String × α)} (k : String)
    (v : α) (h : (keysA l).Nodup) : (keysA (insertA l k v)).Nodup := by
  by_cases hm : k ∈ keysA l
  · rw [keysA_insertA_of_mem v hm]; exact h
  · rw [insertA_of_not_mem v hm, keysA_append]
    refine List.Nodup.append h (List.nodup_singleton k) ?_
    intro x hx hx2
    rw [keysA_cons, keysA_nil, List.mem_singleton] at hx2
    subst hx2
    exact hm hx

theorem nodup_keysA_eraseA {α : Type} {l : List (String × α)} (k : String)
    (h : (keysA l).Nodup) : (keysA (eraseA l k)).Nodup := by
  have hs := (eraseA_sublist l k).map (fun kv : String × α => kv.1)
  exact List.Sublist.nodup hs h

theorem not_mem_keysA_eraseA {α : Type} {l : List (String × α)} {k : String}
    (h : (keysA l).Nodup) : k ∉ keysA (eraseA l k) := by
  induction l with
  | nil => simp [eraseA]
  | cons hd tl ih =>
    obtain ⟨k0, v0⟩ := hd
    rw [keysA_cons] at h
    have h1 := List.nodup_cons.1 h
    by_cases h0 : k0 = k
    · subst h0
      rw [eraseA, if_pos rfl]
      intro hc
      exact h1.1 hc
    · rw [eraseA, if_neg h0, keysA_cons]
      intro hc
      rcases List.mem_cons.1 hc with hc | hc
      · exact h0 hc.symm
      · exact ih h1.2 hc

theorem lookupA_eraseA_self {α : Type} {l : List (String × α)} (k : String)
    (h : (keysA l).Nodup) : lookupA (eraseA l k) k = none :=
  (lookupA_eq_none_iff _ _).2 (not_mem_keysA_eraseA h)

theorem lookupA_modifyA_self {α : Type} (l : List (String × α)) (k : String)
    (f : α → α) : lookupA (modifyA l k f) k = (lookupA l k).map f := by
  induction l with
  | nil => simp [modifyA, lookupA]
  | cons hd tl ih =>
    obtain ⟨k0, v0⟩ := hd
    by_cases h0 : k0 = k <;> simp [modifyA, lookupA, h0, ih]

theorem lookupA_modifyA_ne {α : Type} (l : List (String × α)) {k k2 : String}
    (f : α → α) (h : k2 ≠ k) : lookupA (modifyA l k f) k2 = lookupA l k2 := by
  have hks : ¬ k = k2 := fun hh => h hh.symm
  induction l with
  | nil => simp [modifyA]
  | cons hd tl ih =>
    obtain ⟨k0, v0⟩ := hd
    by_cases h0 : k0 = k
    · subst h0
      simp [modifyA, lookupA, hks]
    · simp [modifyA, lookupA, h0, ih]

theorem keysA_modifyA {α : Type} (l : List (String × α)) (k : String)
    (f : α → α) : keysA (modifyA l k f) = keysA l := by
  induction l with
  | nil => simp [modifyA]
  | cons hd tl ih =>
    obtain ⟨k0, v0⟩ := hd
    by_cases h0 : k0 = k
    · simp [modifyA, keysA, h0]
    · simp only [modifyA, if_neg h0, keysA_cons]
      rw [ih]

/-! ### Concrete demonstration states

`demoState2`: sockets `"A"` and `"B"` both join game `"demo"` in room
`"R1"` (reached by running the actual operations from the empty state).
`demoStateSplit`: `"A"` sits in room `"R1"` and `"B"` in room `"R2"` of
the same game. -/

def emptyState : ServerState :=
  { gameRooms := [], activePlayers := [], subs := [] }

def demoState2 : ServerState :=
  let sA := (joinGame (connect emptyState "A" 100) "A" "demo" none [] "R1" 100).1
  (joinGame (connect sA "B" 110) "B" "demo" (some "R1") [] "QQQQQQ" 110).1

def demoStateSplit : ServerState :=
  let sA := (joinGame (connect emptyState "A" 100) "A" "demo" (some "R1") [] "QQQQQQ" 100).1
  (joinGame (connect sA "B" 110) "B" "demo" (some "R2") [] "QQQQQQ" 110).1

/-! ### C1: broadcast targeting of `stateUpdate` and `gameEvent` -/

/-- C1: for every connection with a recorded room membership, a
`stateUpdate` broadcast is delivered to every other member of the targeted
room's broadcast group and never to the originating connection, while a
`gameEvent` broadcast is delivered to every member of the targeted room's
broadcast group, the sender included whenever it is one of its members. -/
theorem broadcast_targets_stateUpdate_gameEvent (s : ServerState)
    (sock roomId : String) (state : Obj) (eventType : String)
    (eventData : Obj) (now : Nat) (p : ActivePlayer) (pr : String)
    (hp : lookupA s.activePlayers sock = some p)
    (hr : p.roomId = some pr) (hne : pr ≠ "")
    (hs : sock ∈ broadcastGroup s roomId) :
    (stateUpdate s sock roomId state now).2 =
      ((broadcastGroup s roomId).filter (fun t => t != sock)).map
        (fun t => Msg.stateUpdateMsg t sock state now) ∧
    (stateUpdate s sock roomId state now).2.all
      (fun m => m.target != sock) = true ∧
    (gameEvent s sock roomId eventType eventData now).2 =
      (broadcastGroup s roomId).map
        (fun t => Msg.gameEventMsg t sock eventType eventData now) ∧
    Msg.gameEventMsg sock sock eventType eventData now ∈
      (gameEvent s sock roomId eventType eventData now).2 := by
  have h1 : (stateUpdate s sock roomId state now).2 =
      ((broadcastGroup s roomId).filter (fun t => t != sock)).map
        (fun t => Msg.stateUpdateMsg t sock state now) := by
    simp only [stateUpdate, hp, hr]
    rw [if_neg hne]
  have h2 : (gameEvent s sock roomId eventType eventData now).2 =
      (broadcastGroup s roomId).map
        (fun t => Msg.gameEventMsg t sock eventType eventData now) := by
    simp only [gameEvent, hp, hr]
    rw [if_neg hne]
  refine ⟨h1, ?_, h2, ?_⟩
  · rw [h1, List.all_eq_true]
    intro m hm
    obtain ⟨t, ht, rfl⟩ := List.mem_map.1 hm
    have hf := (List.mem_filter.1 ht).2
    simpa [Msg.target] using hf
  · rw [h2]
    exact List.mem_map.2 ⟨sock, hs, rfl⟩

/-- Witness for C1 at the two-member room `demoState2`: the `stateUpdate`
broadcast from `"A"` reaches exactly `"B"`, never `"A"`, and the
`gameEvent` broadcast reaches `"A"` and `"B"`. -/
theorem broadcast_targets_stateUpdate_gameEvent_witness :
    (stateUpdate demoState2 "A" "R1" [("x", Val.nat 1)] 200).2 =
      ((broadcastGroup demoState2 "R1").filter (fun t => t != "A")).map
        (fun t => Msg.stateUpdateMsg t "A" [("x", Val.nat 1)] 200) ∧
    (stateUpdate demoState2 "A" "R1" [("x", Val.nat 1)] 200).2.all
      (fun m => m.target != "A") = true ∧
    (gameEvent demoState2 "A" "R1" "boom" [] 200).2 =
      (broadcastGroup demoState2 "R1").map
        (fun t => Msg.gameEventMsg t "A" "boom" [] 200) ∧
    Msg.gameEventMsg "A" "A" "boom" [] 200 ∈
      (gameEvent demoState2 "A" "R1" "boom" [] 200).2 :=
  broadcast_targets_stateUpdate_gameEvent demoState2 "A" "R1"
    [("x", Val.nat 1)] "boom" [] 200
    { id := "A", roomId := some "R1", gameId := some "demo",
      joinedAt := 100, lastActivity := 100 }
    "R1" (by decide) (by decide) (by decide) (by decide)

/-! ### C7: messages from connections without membership drop silently -/

/-- C7: a `stateUpdate` or `gameEvent` from a connection with no recorded
room membership (no ActivePlayer record, or one whose `roomId` is null) is
dropped silently: the session directory is unchanged and no message — in
particular no error — is emitted to anyone. -/
theorem no_membership_drops_silently (s : ServerState) (sock roomId : String)
    (state : Obj) (eventType : String) (eventData : Obj) (now : Nat)
    (h : lookupA s.activePlayers sock = none ∨
      ∃ p, lookupA s.activePlayers sock = some p ∧ p.roomId = none) :
    stateUpdate s sock roomId state now = (s, []) ∧
    gameEvent s sock roomId eventType eventData now = (s, []) := by
  rcases h with h | ⟨p, hp, hr⟩
  · exact ⟨by simp [stateUpdate, h], by simp [gameEvent, h]⟩
  · exact ⟨by simp [stateUpdate, hp, hr], by simp [gameEvent, hp, hr]⟩

/-- Witness for C7: socket `"A"` has connected but joined no room, so its
`stateUpdate` and `gameEvent` leave the state untouched and emit
nothing. -/
theorem no_membership_drops_silently_witness :
    stateUpdate (connect emptyState "A" 100) "A" "R1" [] 200 =
      (connect emptyState "A" 100, []) ∧
    gameEvent (connect emptyState "A" 100) "A" "R1" "boom" [] 200 =
      (connect emptyState "A" 100, []) :=
  no_membership_drops_silently (connect emptyState "A" 100) "A" "R1" []
    "boom" [] 200
    (Or.inr ⟨{ id := "A", roomId := none, gameId := none,
               joinedAt := 100, lastActivity := 100 }, by decide, rfl⟩)

/-! ### C9: the caller-supplied roomId is trusted as broadcast target -/

/-- C9: `stateUpdate` and `gameEvent` address the caller-supplied `roomId`
without cross-checking it against the sender's recorded membership: even
when the recorded room `pr` differs from the supplied `roomId`, the
broadcast goes to the supplied room's broadcast group (minus the sender
for `stateUpdate`).  Concretely, in `demoStateSplit` socket `"A"` is a
member of `"R1"` only, yet its `stateUpdate` and `gameEvent` addressed to
`"R2"` are delivered to `"B"`, the member of a room `"A"` never joined. -/
theorem caller_supplied_roomId_trusted (s : ServerState)
    (sock roomId : String) (state : Obj) (eventType : String)
    (eventData : Obj) (now : Nat) (p : ActivePlayer) (pr : String)
    (hp : lookupA s.activePlayers sock = some p)
    (hr : p.roomId = some pr) (hne : pr ≠ "") (_hdiff : pr ≠ roomId) :
    (stateUpdate s sock roomId state now).2 =
      ((broadcastGroup s roomId).filter (fun t => t != sock)).map
        (fun t => Msg.stateUpdateMsg t sock state now) ∧
    (gameEvent s sock roomId eventType eventData now).2 =
      (broadcastGroup s roomId).map
        (fun t => Msg.gameEventMsg t sock eventType eventData now) ∧
    Msg.stateUpdateMsg "B" "A" [("x", Val.nat 1)] 200 ∈
      (stateUpdate demoStateSplit "A" "R2" [("x", Val.nat 1)] 200).2 ∧
    Msg.gameEventMsg "B" "A" "boom" [] 200 ∈
      (gameEvent demoStateSplit "A" "R2" "boom" [] 200).2 := by
  refine ⟨?_, ?_, by decide, by decide⟩
  · simp only [stateUpdate, hp, hr]
    rw [if_neg hne]
  · simp only [gameEvent, hp, hr]
    rw [if_neg hne]

/-- Witness for C9: instantiated at `demoStateSplit`, where `"A"` is
recorded in `"R1"` but addresses `"R2"`. -/
theorem caller_supplied_roomId_trusted_witness :
    (stateUpdate demoStateSplit "A" "R2" [("x", Val.nat 1)] 200).2 =
      ((broadcastGroup demoStateSplit "R2").filter (fun t => t != "A")).map
        (fun t => Msg.stateUpdateMsg t "A" [("x", Val.nat 1)] 200) ∧
    (gameEvent demoStateSplit "A" "R2" "boom" [] 200).2 =
      (broadcastGroup demoStateSplit "R2").map
        (fun t => Msg.gameEventMsg t "A" "boom" [] 200) ∧
    Msg.stateUpdateMsg "B" "A" [("x", Val.nat 1)] 200 ∈
      (stateUpdate demoStateSplit "A" "R2" [("x", Val.nat 1)] 200).2 ∧
    Msg.gameEventMsg "B" "A" "boom" [] 200 ∈
      (gameEvent demoStateSplit "A" "R2" "boom" [] 200).2 :=
  caller_supplied_roomId_trusted demoStateSplit "A" "R2"
    [("x", Val.nat 1)] "boom" [] 200
    { id := "A", roomId := some "R1", gameId := some "demo",
      joinedAt := 100, lastActivity := 100 }
    "R1" (by decide) (by decide) (by decide) (by decide)

/-! ### C4: which inbound messages refresh which activity stamps -/

/-- C4 as stated is false at a concrete input: in `demoState2` (room
`"R1"` has `lastActivity = 100`), the inbound `gameEvent` from member
`"A"` at time 2000 leaves `Room.lastActivity` at 100 instead of
refreshing it; and a `joinGame` into the existing room by `"C"` (connected
at 150) at time 300 leaves `ActivePlayer.lastActivity` at 150 and the
room's stamp at 100, neither refreshed to 300. -/
theorem inbound_refresh_counterexample :
    roomLastActivity (gameEvent demoState2 "A" "R1" "boom" [] 2000).1
      "demo" "R1" = some 100 ∧
    roomLastActivity (gameEvent demoState2 "A" "R1" "boom" [] 2000).1
      "demo" "R1" ≠ some 2000 ∧
    lookupA (joinGame (connect demoState2 "C" 150) "C" "demo" (some "R1")
        [] "QQQQQQ" 300).1.activePlayers "C" =
      some { id := "C", roomId := some "R1", gameId := some "demo",
             joinedAt := 150, lastActivity := 150 } ∧
    roomLastActivity (joinGame (connect demoState2 "C" 150) "C" "demo"
        (some "R1") [] "QQQQQQ" 300).1 "demo" "R1" = some 100 := by
  refine ⟨by decide, by decide, by decide, by decide⟩

/-- C4, amended to what the handlers do: an inbound `stateUpdate` from a
member refreshes the sender's `ActivePlayer.lastActivity` and the
`lastActivity` of the caller-addressed room when that room exists under
the sender's game; an inbound `gameEvent` refreshes only the sender's
`ActivePlayer.lastActivity` and no room stamp at all; an inbound
`joinGame` into an existing room refreshes neither the joiner's
`ActivePlayer.lastActivity` nor the room's `lastActivity` (timestamps are
only set on records it creates). -/
theorem inbound_activity_refresh (s : ServerState) (sock roomId : String)
    (state : Obj) (eventType : String) (eventData : Obj) (now : Nat)
    (p : ActivePlayer) (pr gid : String) (cat : List (String × Room))
    (room : Room) (jgid jrid : String) (pd : Obj) (genId : String)
    (jcat : List (String × Room)) (jroom : Room)
    (hp : lookupA s.activePlayers sock = some p)
    (hr : p.roomId = some pr) (hne : pr ≠ "") (hg : p.gameId = some gid)
    (hcat : lookupA s.gameRooms gid = some cat)
    (hroom : lookupA cat roomId = some room)
    (hjrid : jrid ≠ "") (hjcat : lookupA s.gameRooms jgid = some jcat)
    (hjroom : lookupA jcat jrid = some jroom) :
    (stateUpdate s sock roomId state now).1.activePlayers =
      modifyA s.activePlayers sock (fun q => { q with lastActivity := now }) ∧
    roomLastActivity (stateUpdate s sock roomId state now).1 gid roomId =
      some now ∧
    (gameEvent s sock roomId eventType eventData now).1.activePlayers =
      modifyA s.activePlayers sock (fun q => { q with lastActivity := now }) ∧
    (gameEvent s sock roomId eventType eventData now).1.gameRooms =
      s.gameRooms ∧
    lookupA (joinGame s sock jgid (some jrid) pd genId now).1.activePlayers
      sock = some { p with roomId := some jrid, gameId := some jgid } ∧
    roomLastActivity (joinGame s sock jgid (some jrid) pd genId now).1
      jgid jrid = some jroom.lastActivity := by
  refine ⟨?_, ?_, ?_, ?_, ?_, ?_⟩
  · simp only [stateUpdate, hp, hr]
    rw [if_neg hne]
  · simp only [stateUpdate, hp, hr, hg, hcat, hroom]
    rw [if_neg hne]
    cases hps : lookupA room.players sock <;>
      simp only [roomLastActivity, lookupRoom, hps, lookupA_insertA_self]
  · simp only [gameEvent, hp, hr]
    rw [if_neg hne]
  · simp only [gameEvent, hp, hr]
    rw [if_neg hne]
  · simp only [joinGame, hjcat, hjroom, if_neg hjrid]
    rw [lookupA_modifyA_self, hp]
    rfl
  · simp only [joinGame, hjcat, hjroom, if_neg hjrid, roomLastActivity,
      lookupRoom, lookupA_insertA_self]

/-- Witness for C4 (amended) at `demoState2`: `"A"` sends a `stateUpdate`
and a `gameEvent` at time 500, and re-joins the existing room at 500 —
the re-join leaves both stamps at their old values 100. -/
theorem inbound_activity_refresh_witness :
    (stateUpdate demoState2 "A" "R1" [] 500).1.activePlayers =
      modifyA demoState2.activePlayers "A"
        (fun q => { q with lastActivity := 500 }) ∧
    roomLastActivity (stateUpdate demoState2 "A" "R1" [] 500).1 "demo"
      "R1" = some 500 ∧
    (gameEvent demoState2 "A" "R1" "boom" [] 500).1.activePlayers =
      modifyA demoState2.activePlayers "A"
        (fun q => { q with lastActivity := 500 }) ∧
    (gameEvent demoState2 "A" "R1" "boom" [] 500).1.gameRooms =
      demoState2.gameRooms ∧
    lookupA (joinGame demoState2 "A" "demo" (some "R1") [] "QQQQQQ"
        500).1.activePlayers "A" =
      some { id := "A", roomId := some "R1", gameId := some "demo",
             joinedAt := 100, lastActivity := 100 } ∧
    roomLastActivity (joinGame demoState2 "A" "demo" (some "R1") []
        "QQQQQQ" 500).1 "demo" "R1" = some 100 :=
  inbound_activity_refresh demoState2 "A" "R1" [] "boom" [] 500
    { id := "A", roomId := some "R1", gameId := some "demo",
      joinedAt := 100, lastActivity := 100 }
    "R1" "demo"
    [("R1", { roomId := "R1", gameId := "demo",
              players := [("A",
                [("id", Val.str "A"), ("joinedAt", Val.nat 100),
                 ("lastActivity", Val.nat 100)]),
               ("B",
                [("id", Val.str "B"), ("joinedAt", Val.nat 110),
                 ("lastActivity", Val.nat 110)])],
              createdAt := 100, lastActivity := 100 })]
    { roomId := "R1", gameId := "demo",
      players := [("A",
        [("id", Val.str "A"), ("joinedAt", Val.nat 100),
         ("lastActivity", Val.nat 100)]),
       ("B",
        [("id", Val.str "B"), ("joinedAt", Val.nat 110),
         ("lastActivity", Val.nat 110)])],
      createdAt := 100, lastActivity := 100 }
    "demo" "R1" [] "QQQQQQ"
    [("R1", { roomId := "R1", gameId := "demo",
              players := [("A",
                [("id", Val.str "A"), ("joinedAt", Val.nat 100),
                 ("lastActivity", Val.nat 100)]),
               ("B",
                [("id", Val.str "B"), ("joinedAt", Val.nat 110),
                 ("lastActivity", Val.nat 110)])],
              createdAt := 100, lastActivity := 100 })]
    { roomId := "R1", gameId := "demo",
      players := [("A",
        [("id", Val.str "A"), ("joinedAt", Val.nat 100),
         ("lastActivity", Val.nat 100)]),
       ("B",
        [("id", Val.str "B"), ("joinedAt", Val.nat 110),
         ("lastActivity", Val.nat 110)])],
      createdAt := 100, lastActivity := 100 }
    (by decide) (by decide) (by decide) (by decide) (by decide) (by decide)
    (by decide) (by decide) (by decide)

/-! ### C5: length and alphabet of generated room ids -/

/-- The uppercase base-36 alphabet. -/
def base36UpperChars : List Char := "0123456789ABCDEFGHIJKLMNOPQRSTUVWXYZ".data

/-- Every digit of the base-36 expansion of `m / 2 ^ k` is below 36. -/
theorem frac36_lt (fuel m k : Nat) (hm : m < 2 ^ k) :
    ∀ d ∈ frac36 fuel m k, d < 36 := by
  induction fuel generalizing m with
  | zero =>
    intro d hd
    simp [frac36] at hd
  | succ n ih =>
    intro d hd
    have hpos : 0 < 2 ^ k := Nat.pos_pow_of_pos k (by norm_num)
    rw [frac36] at hd
    by_cases h0 : m = 0
    · rw [if_pos h0] at hd
      simp at hd
    · rw [if_neg h0] at hd
      rcases List.mem_cons.1 hd with hd | hd
      · subst hd
        exact (Nat.div_lt_iff_lt_mul hpos).2 (by omega)
      · exact ih (m * 36 % 2 ^ k) (Nat.mod_lt _ hpos) d hd

/-- All 36 digit characters upper-case into the base-36 alphabet. -/
theorem char36_toUpper_mem :
    ∀ d < 36, base36UpperChars.contains ((char36 d).toUpper) = true := by
  decide

/-- C5 as stated is false at a concrete input: for the random double 0.5
(`= 1 / 2 ^ 1`, whose base-36 rendering is `"0.i"`), the generated room id
is `"I"`, a single character rather than six; joining with no supplied
roomId then acknowledges room `"I"`. -/
theorem generateRoomId_length_counterexample :
    generateRoomId 1 1 = "I" ∧
    (generateRoomId 1 1).length = 1 ∧
    (joinGame (connect emptyState "A" 100) "A" "demo" none []
        (generateRoomId 1 1) 100).2.head? =
      some (Msg.roomJoined "A" "I" "demo" "A" 1) := by
  refine ⟨by decide, by decide, by decide⟩

/-- C5, amended: a generated room id consists of at most six characters,
all drawn from the uppercase base-36 alphabet (digits and `A`-`Z`); its
length is exactly `min 6 (number of base-36 fractional digits of the
random double)`, hence exactly six whenever the expansion carries at least
six digits (the typical case). -/
theorem generateRoomId_length_alphabet (m k : Nat) (hm : m < 2 ^ k) :
    (generateRoomId m k).length = min 6 (frac36 k m k).length ∧
    (generateRoomId m k).data.all
      (fun c => base36UpperChars.contains c) = true := by
  constructor
  · simp [generateRoomId, String.length, List.length_take]
  · rw [List.all_eq_true]
    intro c hc
    have hc2 : c ∈ ((frac36 k m k).take 6).map
        (fun d => (char36 d).toUpper) := hc
    obtain ⟨d, hd, rfl⟩ := List.mem_map.1 hc2
    have hdm : d ∈ frac36 k m k := List.take_subset 6 _ hd
    exact char36_toUpper_mem d (frac36_lt k m k hm d hdm)

/-- Witness for C5 (amended) at the random double
`123456789123 / 2 ^ 40`, whose expansion has at least six digits: the id
(`"41IOTI"`) has exactly six characters, all in the alphabet. -/
theorem generateRoomId_length_alphabet_witness :
    (generateRoomId 123456789123 40).length =
      min 6 (frac36 40 123456789123 40).length ∧
    (generateRoomId 123456789123 40).data.all
      (fun c => base36UpperChars.contains c) = true :=
  generateRoomId_length_alphabet 123456789123 40 (by norm_num)

/-! ### C2: the join backfill delivers each pre-existing member once -/

/-- The backfill view of a message list: the `playerJoined` messages
addressed to `sock`, as (member id, delivered snapshot) pairs in delivery
order. -/
def joinBackfill (msgs : List Msg) (sock : String) : List (String × Obj) :=
  msgs.filterMap (fun m =>
    match m with
    | Msg.playerJoined t i d => if t = sock then some (i, d) else none
    | _ => none)

theorem filterMap_some_pair {α β : Type} (l : List (α × β)) :
    l.filterMap (fun kv => some (kv.1, kv.2)) = l := by
  induction l with
  | nil => rfl
  | cons hd tl ih =>
    obtain ⟨a, b⟩ := hd
    simp [List.filterMap_cons, ih]

theorem joinBackfill_cons_roomJoined (a b c d : String) (e : Nat)
    (msgs : List Msg) (sock : String) :
    joinBackfill (Msg.roomJoined a b c d e :: msgs) sock =
      joinBackfill msgs sock := by
  simp [joinBackfill, List.filterMap_cons]

theorem joinBackfill_append (msgs1 msgs2 : List Msg) (sock : String) :
    joinBackfill (msgs1 ++ msgs2) sock =
      joinBackfill msgs1 sock ++ joinBackfill msgs2 sock := by
  simp [joinBackfill, List.filterMap_append]

/-- The per-other-member notifications carry targets different from the
joiner, so none of them contributes to the backfill view. -/
theorem joinBackfill_map_others (sock : String) (others : List String)
    (pd : Obj) (hothers : ∀ t ∈ others, t ≠ sock) :
    joinBackfill (others.map (fun t => Msg.playerJoined t sock pd)) sock =
      [] := by
  rw [joinBackfill, List.filterMap_map, List.filterMap_eq_nil_iff]
  intro t ht
  simp [hothers t ht]

/-- The backfill messages to the joiner reproduce the underlying member
list exactly. -/
theorem joinBackfill_map_self (sock : String) (l : List (String × Obj)) :
    joinBackfill (l.map (fun kv => Msg.playerJoined sock kv.1 kv.2)) sock =
      l := by
  rw [joinBackfill, List.filterMap_map]
  have he : ((fun m =>
      match m with
      | Msg.playerJoined t i d => if t = sock then some (i, d) else none
      | _ => none) ∘ (fun (kv : String × Obj) =>
        Msg.playerJoined sock kv.1 kv.2)) =
      fun (kv : String × Obj) => some (kv.1, kv.2) := by
    funext kv
    simp
  rw [he, filterMap_some_pair]

/-- The per-other-member notifications, whose target list is already
filtered against the joiner, contribute nothing to the backfill view. -/
theorem joinBackfill_filtered_others (sock : String) (grp : List String)
    (pd : Obj) :
    joinBackfill ((grp.filter (fun t => t != sock)).map
      (fun t => Msg.playerJoined t sock pd)) sock = [] := by
  rw [joinBackfill, List.filterMap_map, List.filterMap_eq_nil_iff]
  intro t ht
  have h2 := (List.mem_filter.1 ht).2
  rw [bne_iff_ne] at h2
  simp [h2]

/-- Keys of `pre` all differ from a fresh `sock`, so the filter keeps
exactly `pre` and drops the just-inserted joiner entry. -/
theorem filter_ne_append_single (pre : List (String × Obj)) (sock : String)
    (snap : Obj) (hnew : sock ∉ keysA pre) :
    ((pre ++ [(sock, snap)]).filter (fun kv => kv.1 != sock)) = pre := by
  rw [List.filter_append]
  have h1 : pre.filter (fun kv => kv.1 != sock) = pre := by
    rw [List.filter_eq_self]
    intro kv hkv
    rw [bne_iff_ne]
    intro he
    exact hnew (by
      rw [← he]
      exact List.mem_map_of_mem (fun kv => kv.1) hkv)
  have h2 : (([(sock, snap)] : List (String × Obj)).filter
      (fun kv => kv.1 != sock)) = [] := by simp
  rw [h1, h2, List.append_nil]

/-- C2: a join into a room whose member map holds `n` pre-existing
members (the joiner not among them) sends the joiner exactly one
`playerJoined` per pre-existing member, carrying that member's stored
snapshot: the backfill view of the emitted messages is exactly the prior
member list — each member counted once, none duplicated, none omitted,
none for the joiner itself — for every arrival order, since the member
list is arbitrary. -/
theorem join_backfill_exact (s : ServerState) (sock gameId rid : String)
    (pd : Obj) (genId : String) (now : Nat) (hrid : rid ≠ "")
    (hnodup : (keysA (roomPlayers s gameId rid)).Nodup)
    (hnew : sock ∉ keysA (roomPlayers s gameId rid)) :
    joinBackfill (joinGame s sock gameId (some rid) pd genId now).2 sock =
      roomPlayers s gameId rid ∧
    (joinBackfill (joinGame s sock gameId (some rid) pd genId now).2
      sock).length = (roomPlayers s gameId rid).length ∧
    ((keysA (roomPlayers s gameId rid)).all (fun i =>
      (keysA (joinBackfill (joinGame s sock gameId (some rid) pd genId
        now).2 sock)).count i == 1)) = true ∧
    (keysA (joinBackfill (joinGame s sock gameId (some rid) pd genId
      now).2 sock)).count sock = 0 := by
  have key : joinBackfill (joinGame s sock gameId (some rid) pd genId
      now).2 sock = roomPlayers s gameId rid := by
    cases hcat : lookupA s.gameRooms gameId with
    | none =>
      have hpre : roomPlayers s gameId rid = [] := by
        simp [roomPlayers, lookupRoom, hcat]
      rw [hpre]
      simp only [joinGame, hcat, if_neg hrid, lookupA]
      rw [joinBackfill_cons_roomJoined, joinBackfill_append,
          joinBackfill_filtered_others, joinBackfill_map_self,
          List.nil_append]
      simp [insertA]
    | some cat =>
      cases hroom : lookupA cat rid with
      | none =>
        have hpre : roomPlayers s gameId rid = [] := by
          simp [roomPlayers, lookupRoom, hcat, hroom]
        rw [hpre]
        simp only [joinGame, hcat, hroom, if_neg hrid]
        rw [joinBackfill_cons_roomJoined, joinBackfill_append,
            joinBackfill_filtered_others, joinBackfill_map_self,
            List.nil_append]
        simp [insertA]
      | some room =>
        have hpre : roomPlayers s gameId rid = room.players := by
          simp [roomPlayers, lookupRoom, hcat, hroom]
        rw [hpre] at hnew
        rw [hpre]
        simp only [joinGame, hcat, hroom, if_neg hrid]
        rw [joinBackfill_cons_roomJoined, joinBackfill_append,
            joinBackfill_filtered_others, joinBackfill_map_self,
            List.nil_append]
        rw [insertA_of_not_mem _ hnew, filter_ne_append_single _ _ _ hnew]
  refine ⟨key, by rw [key], ?_, ?_⟩
  · rw [List.all_eq_true]
    intro i hi
    rw [key, beq_iff_eq]
    exact List.count_eq_one_of_mem hnodup hi
  · rw [key, List.count_eq_zero]
    exact hnew

/-- Witness for C2: `"C"` joins the two-member room `"R1"` of
`demoState2` and is backfilled with exactly the stored snapshots of `"A"`
and `"B"`. -/
theorem join_backfill_exact_witness :
    joinBackfill (joinGame (connect demoState2 "C" 150) "C" "demo"
      (some "R1") [] "QQQQQQ" 150).2 "C" =
      roomPlayers (connect demoState2 "C" 150) "demo" "R1" ∧
    (joinBackfill (joinGame (connect demoState2 "C" 150) "C" "demo"
      (some "R1") [] "QQQQQQ" 150).2 "C").length =
      (roomPlayers (connect demoState2 "C" 150) "demo" "R1").length ∧
    ((keysA (roomPlayers (connect demoState2 "C" 150) "demo" "R1")).all
      (fun i => (keysA (joinBackfill (joinGame (connect demoState2 "C"
        150) "C" "demo" (some "R1") [] "QQQQQQ" 150).2 "C")).count i ==
        1)) = true ∧
    (keysA (joinBackfill (joinGame (connect demoState2 "C" 150) "C"
      "demo" (some "R1") [] "QQQQQQ" 150).2 "C")).count "C" = 0 :=
  join_backfill_exact (connect demoState2 "C" 150) "C" "demo" "R1" []
    "QQQQQQ" 150 (by decide) (by decide) (by decide)

/-! ### C3: the disconnect cascade and the existence invariants -/

/-- The existence invariants of the session directory: every stored
GameCategory holds at least one Room and every stored Room at least one
tracked player. -/
def roomInv (s : ServerState) : Bool :=
  s.gameRooms.all (fun gc =>
    !gc.2.isEmpty && gc.2.all (fun rc => !rc.2.players.isEmpty))

theorem all_eraseA {α : Type} (l : List (String × α)) (k : String)
    (P : String × α → Bool) (h : l.all P = true) :
    (eraseA l k).all P = true := by
  rw [List.all_eq_true] at *
  intro x hx
  exact h x (mem_of_mem_eraseA hx)

theorem all_insertA {α : Type} (l : List (String × α)) (k : String) (v : α)
    (P : String × α → Bool) (h : l.all P = true) (hv : P (k, v) = true) :
    (insertA l k v).all P = true := by
  rw [List.all_eq_true] at *
  intro x hx
  rcases mem_insertA hx with hx | hx
  · exact h x hx
  · rw [hx]; exact hv

theorem insertA_isEmpty {α : Type} (l : List (String × α)) (k : String)
    (v : α) : (insertA l k v).isEmpty = false := by
  cases l with
  | nil => rfl
  | cons hd tl =>
    obtain ⟨k0, v0⟩ := hd
    rw [insertA]
    split <;> rfl

/-- C3: disconnecting a connection that holds room membership removes the
ActivePlayer record, removes the player from `Room.players`, notifies
every remaining subscriber of the room with `playerLeft`, deletes the room
iff it became empty and the owning GameCategory iff it then has no rooms,
and preserves the invariant that every category holds ≥ 1 room and every
room ≥ 1 tracked player. -/
theorem disconnect_cascade (s : ServerState) (sock : String) (now : Nat)
    (p : ActivePlayer) (rid gid : String) (cat : List (String × Room))
    (room : Room)
    (hp : lookupA s.activePlayers sock = some p)
    (hr : p.roomId = some rid) (hg : p.gameId = some gid)
    (hrne : rid ≠ "") (hgne : gid ≠ "")
    (hcat : lookupA s.gameRooms gid = some cat)
    (hroom : lookupA cat rid = some room)
    (hnodA : (keysA s.activePlayers).Nodup)
    (hnodC : (keysA s.gameRooms).Nodup)
    (hnodR : (keysA cat).Nodup)
    (hnodP : (keysA room.players).Nodup) :
    lookupA (disconnect s sock now).1.activePlayers sock = none ∧
    storedSnap (disconnect s sock now).1 gid rid sock = none ∧
    (disconnect s sock now).2 =
      ((broadcastGroup s rid).filter (fun t => t != sock)).map
        (fun t => Msg.playerLeft t sock now) ∧
    (lookupRoom (disconnect s sock now).1 gid rid = none ↔
      eraseA room.players sock = []) ∧
    (lookupA (disconnect s sock now).1.gameRooms gid = none ↔
      (eraseA room.players sock = [] ∧ eraseA cat rid = [])) ∧
    (roomInv s = true → roomInv (disconnect s sock now).1 = true) := by
  have hor : ¬(rid = "" ∨ gid = "") := by
    rw [not_or]
    exact ⟨hrne, hgne⟩
  have hD : disconnect s sock now =
      ({ gameRooms :=
          if (eraseA room.players sock).isEmpty then
            if (eraseA cat rid).isEmpty then eraseA s.gameRooms gid
            else insertA s.gameRooms gid (eraseA cat rid)
          else insertA s.gameRooms gid
            (insertA cat rid { room with players := eraseA room.players sock }),
         activePlayers := eraseA s.activePlayers sock,
         subs := eraseA s.subs sock },
       ((broadcastGroup s rid).filter (fun t => t != sock)).map
         (fun t => Msg.playerLeft t sock now)) := by
    simp only [disconnect, hp, hr, hg, hcat, hroom, if_neg hor]
  refine ⟨?_, ?_, ?_, ?_, ?_, ?_⟩
  · rw [hD]
    exact lookupA_eraseA_self sock hnodA
  · rw [hD]
    by_cases he1 : (eraseA room.players sock).isEmpty = true
    · by_cases he2 : (eraseA cat rid).isEmpty = true
      · simp only [storedSnap, roomPlayers, lookupRoom, if_pos he1,
          if_pos he2, lookupA_eraseA_self gid hnodC]
        rfl
      · simp only [storedSnap, roomPlayers, lookupRoom, if_pos he1,
          if_neg he2, lookupA_insertA_self,
          lookupA_eraseA_self rid hnodR]
        rfl
    · simp only [storedSnap, roomPlayers, lookupRoom, if_neg he1,
        lookupA_insertA_self]
      exact lookupA_eraseA_self sock hnodP
  · rw [hD]
  · rw [hD]
    by_cases he1 : (eraseA room.players sock).isEmpty = true
    · by_cases he2 : (eraseA cat rid).isEmpty = true
      · simp only [lookupRoom, if_pos he1, if_pos he2,
          lookupA_eraseA_self gid hnodC]
        simp [List.isEmpty_iff] at he1
        simp [he1]
      · simp only [lookupRoom, if_pos he1, if_neg he2,
          lookupA_insertA_self, lookupA_eraseA_self rid hnodR]
        simp [List.isEmpty_iff] at he1
        simp [he1]
    · simp only [lookupRoom, if_neg he1, lookupA_insertA_self]
      simp [List.isEmpty_iff] at he1
      simp [he1]
  · rw [hD]
    by_cases he1 : (eraseA room.players sock).isEmpty = true
    · by_cases he2 : (eraseA cat rid).isEmpty = true
      · simp only [if_pos he1, if_pos he2,
          lookupA_eraseA_self gid hnodC]
        simp [List.isEmpty_iff] at he1 he2
        simp [he1, he2]
      · simp only [if_pos he1, if_neg he2, lookupA_insertA_self]
        simp [List.isEmpty_iff] at he1 he2
        simp [he1, he2]
    · simp only [if_neg he1, lookupA_insertA_self]
      simp [List.isEmpty_iff] at he1
      simp [he1]
  · intro hinv
    rw [hD]
    rw [roomInv, List.all_eq_true] at hinv
    have hPcat := hinv (gid, cat) (mem_of_lookupA hcat)
    rw [Bool.and_eq_true] at hPcat
    rw [roomInv]
    by_cases he1 : (eraseA room.players sock).isEmpty = true
    · by_cases he2 : (eraseA cat rid).isEmpty = true
      · simp only [if_pos he1, if_pos he2]
        rw [List.all_eq_true]
        intro x hx
        exact hinv x (mem_of_mem_eraseA hx)
      · simp only [if_pos he1, if_neg he2]
        refine all_insertA _ _ _ _ (by rw [List.all_eq_true]; exact hinv) ?_
        rw [Bool.and_eq_true]
        constructor
        · rw [Bool.not_eq_true] at he2
          rw [he2]
          rfl
        · exact all_eraseA _ _ _ hPcat.2
    · simp only [if_neg he1]
      refine all_insertA _ _ _ _ (by rw [List.all_eq_true]; exact hinv) ?_
      rw [Bool.and_eq_true]
      refine ⟨?_, ?_⟩
      · rw [insertA_isEmpty]
        rfl
      · refine all_insertA _ _ _ _ hPcat.2 ?_
        rw [Bool.not_eq_true] at he1
        rw [he1]
        rfl

/-- The room `"R1"` as stored in `demoState2`. -/
def demoRoomR1 : Room :=
  { roomId := "R1", gameId := "demo",
    players := [("A",
      [("id", Val.str "A"), ("joinedAt", Val.nat 100),
       ("lastActivity", Val.nat 100)]),
     ("B",
      [("id", Val.str "B"), ("joinedAt", Val.nat 110),
       ("lastActivity", Val.nat 110)])],
    createdAt := 100, lastActivity := 100 }

/-- The `"demo"` game category as stored in `demoState2`. -/
def demoCatR1 : List (String × Room) := [("R1", demoRoomR1)]

/-- Witness for C3: `"A"` disconnects from the two-member room of
`demoState2`; `"B"` is notified, the room survives with `"B"` alone, and
the invariants hold afterwards. -/
theorem disconnect_cascade_witness :
    lookupA (disconnect demoState2 "A" 300).1.activePlayers "A" = none ∧
    storedSnap (disconnect demoState2 "A" 300).1 "demo" "R1" "A" = none ∧
    (disconnect demoState2 "A" 300).2 =
      ((broadcastGroup demoState2 "R1").filter (fun t => t != "A")).map
        (fun t => Msg.playerLeft t "A" 300) ∧
    (lookupRoom (disconnect demoState2 "A" 300).1 "demo" "R1" = none ↔
      eraseA demoRoomR1.players "A" = []) ∧
    (lookupA (disconnect demoState2 "A" 300).1.gameRooms "demo" = none ↔
      (eraseA demoRoomR1.players "A" = [] ∧ eraseA demoCatR1 "R1" = [])) ∧
    (roomInv demoState2 = true →
      roomInv (disconnect demoState2 "A" 300).1 = true) :=
  disconnect_cascade demoState2 "A" 300
    { id := "A", roomId := some "R1", gameId := some "demo",
      joinedAt := 100, lastActivity := 100 }
    "R1" "demo" demoCatR1 demoRoomR1
    (by decide) (by decide) (by decide) (by decide) (by decide)
    (by decide) (by decide) (by decide) (by decide) (by decide) (by decide)

/-! ### C10: the room sweep leaves player records and subscriptions alone -/

theorem roomSweepRoomStep_frame (now : Nat) (gid : String)
    (acc : ServerState × List Msg) (rid : String) :
    (roomSweepRoomStep now gid acc rid).1.activePlayers =
      acc.1.activePlayers ∧
    (roomSweepRoomStep now gid acc rid).1.subs = acc.1.subs := by
  unfold roomSweepRoomStep
  split
  · exact ⟨rfl, rfl⟩
  · split
    · exact ⟨rfl, rfl⟩
    · split
      · exact ⟨rfl, rfl⟩
      · exact ⟨rfl, rfl⟩

theorem categoryCleanup_frame (gid : String) (acc : ServerState × List Msg) :
    (categoryCleanup gid acc).1.activePlayers = acc.1.activePlayers ∧
    (categoryCleanup gid acc).1.subs = acc.1.subs := by
  unfold categoryCleanup
  split
  · exact ⟨rfl, rfl⟩
  · split
    · exact ⟨rfl, rfl⟩
    · exact ⟨rfl, rfl⟩

theorem foldl_frame {β : Type}
    (f : (ServerState × List Msg) → β → (ServerState × List Msg))
    (hf : ∀ acc b, (f acc b).1.activePlayers = acc.1.activePlayers ∧
      (f acc b).1.subs = acc.1.subs)
    (l : List β) (acc : ServerState × List Msg) :
    (l.foldl f acc).1.activePlayers = acc.1.activePlayers ∧
    (l.foldl f acc).1.subs = acc.1.subs := by
  induction l generalizing acc with
  | nil => exact ⟨rfl, rfl⟩
  | cons hd tl ih =>
    rw [List.foldl_cons]
    have h1 := hf acc hd
    have h2 := ih (f acc hd)
    exact ⟨h2.1.trans h1.1, h2.2.trans h1.2⟩

theorem roomSweepGameStep_frame (now : Nat) (acc : ServerState × List Msg)
    (gid : String) :
    (roomSweepGameStep now acc gid).1.activePlayers =
      acc.1.activePlayers ∧
    (roomSweepGameStep now acc gid).1.subs = acc.1.subs := by
  unfold roomSweepGameStep
  have h1 := categoryCleanup_frame gid
    ((roomIdsOf acc gid).foldl (roomSweepRoomStep now gid) acc)
  have h2 := foldl_frame (roomSweepRoomStep now gid)
    (roomSweepRoomStep_frame now gid) (roomIdsOf acc gid) acc
  exact ⟨h1.1.trans h2.1, h1.2.trans h2.2⟩

theorem roomSweep_frame (s : ServerState) (now : Nat) :
    (roomSweep s now).1.activePlayers = s.activePlayers ∧
    (roomSweep s now).1.subs = s.subs := by
  unfold roomSweep
  exact foldl_frame (roomSweepGameStep now) (roomSweepGameStep_frame now)
    (keysA s.gameRooms) (s, [])

/-- C10: the inactivity room sweep never touches `activePlayers` or the
socket subscriptions, so after it deletes an idle room its members'
records still name the deleted room; a subsequent `stateUpdate` or
`gameEvent` from such a member still passes the membership guard, leaves
`gameRooms` unchanged (no snapshot merge: the member's stored snapshot
stays absent), bumps only the sender's activity stamp, and is still
broadcast to the room's unchanged broadcast group (minus the sender for
`stateUpdate`, in full for `gameEvent`). -/
theorem roomSweep_ghost_membership (s : ServerState) (now : Nat)
    (sock rid gid : String) (u : Obj) (eventType : String)
    (eventData : Obj) (t2 : Nat) (p : ActivePlayer)
    (hp : lookupA s.activePlayers sock = some p)
    (hr : p.roomId = some rid) (hne : rid ≠ "") (hg : p.gameId = some gid)
    (hgone : lookupRoom (roomSweep s now).1 gid rid = none) :
    (roomSweep s now).1.activePlayers = s.activePlayers ∧
    (roomSweep s now).1.subs = s.subs ∧
    broadcastGroup (roomSweep s now).1 rid = broadcastGroup s rid ∧
    (stateUpdate (roomSweep s now).1 sock rid u t2).1.gameRooms =
      (roomSweep s now).1.gameRooms ∧
    (stateUpdate (roomSweep s now).1 sock rid u t2).1.activePlayers =
      modifyA s.activePlayers sock
        (fun q => { q with lastActivity := t2 }) ∧
    (stateUpdate (roomSweep s now).1 sock rid u t2).2 =
      ((broadcastGroup s rid).filter (fun t => t != sock)).map
        (fun t => Msg.stateUpdateMsg t sock u t2) ∧
    storedSnap (stateUpdate (roomSweep s now).1 sock rid u t2).1 gid rid
      sock = none ∧
    (gameEvent (roomSweep s now).1 sock rid eventType eventData
      t2).1.gameRooms = (roomSweep s now).1.gameRooms ∧
    (gameEvent (roomSweep s now).1 sock rid eventType eventData
      t2).1.activePlayers =
      modifyA s.activePlayers sock
        (fun q => { q with lastActivity := t2 }) ∧
    (gameEvent (roomSweep s now).1 sock rid eventType eventData t2).2 =
      (broadcastGroup s rid).map
        (fun t => Msg.gameEventMsg t sock eventType eventData t2) := by
  obtain ⟨hap, hsub⟩ := roomSweep_frame s now
  have hgrp : broadcastGroup (roomSweep s now).1 rid =
      broadcastGroup s rid := by
    rw [broadcastGroup, hsub]
    rfl
  have hp2 : lookupA (roomSweep s now).1.activePlayers sock = some p := by
    rw [hap]
    exact hp
  have hgr : (stateUpdate (roomSweep s now).1 sock rid u t2).1.gameRooms =
      (roomSweep s now).1.gameRooms := by
    simp only [stateUpdate, hp2, hr, hg]
    rw [if_neg hne]
    rw [lookupRoom] at hgone
    cases hcat : lookupA (roomSweep s now).1.gameRooms gid with
    | none => simp [hcat]
    | some cat =>
      have hgone2 : lookupA cat rid = none := by
        simpa [hcat] using hgone
      simp [hcat, hgone2]
  refine ⟨hap, hsub, hgrp, hgr, ?_, ?_, ?_, ?_, ?_, ?_⟩
  · simp only [stateUpdate, hp2, hr]
    rw [if_neg hne, hap]
  · simp only [stateUpdate, hp2, hr]
    rw [if_neg hne, hgrp]
  · rw [storedSnap, roomPlayers, lookupRoom, hgr]
    rw [lookupRoom] at hgone
    cases hcat : lookupA (roomSweep s now).1.gameRooms gid with
    | none => simp [hcat, lookupA]
    | some cat =>
      have hgone2 : lookupA cat rid = none := by
        simpa [hcat] using hgone
      simp [hcat, hgone2, lookupA]
  · simp only [gameEvent, hp2, hr]
    rw [if_neg hne]
  · simp only [gameEvent, hp2, hr]
    rw [if_neg hne, hap]
  · simp only [gameEvent, hp2, hr]
    rw [if_neg hne, hgrp]

/-- Witness for C10: at time 1800101 the sweep closes room `"R1"` of
`demoState2` (idle since 100, past the 30-minute timeout); `"A"` then
sends a `stateUpdate` and a `gameEvent` at time 1800200 that are still
broadcast (the `gameEvent` to `"A"` and `"B"` both) while no room record
is recreated. -/
theorem roomSweep_ghost_membership_witness :
    (roomSweep demoState2 1800101).1.activePlayers =
      demoState2.activePlayers ∧
    (roomSweep demoState2 1800101).1.subs = demoState2.subs ∧
    broadcastGroup (roomSweep demoState2 1800101).1 "R1" =
      broadcastGroup demoState2 "R1" ∧
    (stateUpdate (roomSweep demoState2 1800101).1 "A" "R1" [("x", Val.nat 1)]
      1800200).1.gameRooms = (roomSweep demoState2 1800101).1.gameRooms ∧
    (stateUpdate (roomSweep demoState2 1800101).1 "A" "R1" [("x", Val.nat 1)]
      1800200).1.activePlayers =
      modifyA demoState2.activePlayers "A"
        (fun q => { q with lastActivity := 1800200 }) ∧
    (stateUpdate (roomSweep demoState2 1800101).1 "A" "R1" [("x", Val.nat 1)]
      1800200).2 =
      ((broadcastGroup demoState2 "R1").filter (fun t => t != "A")).map
        (fun t => Msg.stateUpdateMsg t "A" [("x", Val.nat 1)] 1800200) ∧
    storedSnap (stateUpdate (roomSweep demoState2 1800101).1 "A" "R1"
      [("x", Val.nat 1)] 1800200).1 "demo" "R1" "A" = none ∧
    (gameEvent (roomSweep demoState2 1800101).1 "A" "R1" "boom" []
      1800200).1.gameRooms = (roomSweep demoState2 1800101).1.gameRooms ∧
    (gameEvent (roomSweep demoState2 1800101).1 "A" "R1" "boom" []
      1800200).1.activePlayers =
      modifyA demoState2.activePlayers "A"
        (fun q => { q with lastActivity := 1800200 }) ∧
    (gameEvent (roomSweep demoState2 1800101).1 "A" "R1" "boom" []
      1800200).2 =
      (broadcastGroup demoState2 "R1").map
        (fun t => Msg.gameEventMsg t "A" "boom" [] 1800200) :=
  roomSweep_ghost_membership demoState2 1800101 "A" "R1" "demo"
    [("x", Val.nat 1)] "boom" [] 1800200
    { id := "A", roomId := some "R1", gameId := some "demo",
      joinedAt := 100, lastActivity := 100 }
    (by decide) (by decide) (by decide) (by decide) (by decide)

/-! ### C8: the player sweep runs the normal disconnect cascade -/

/-- Whatever branch the room bookkeeping takes, `disconnect` removes
exactly the ActivePlayer record and the socket's subscriptions. -/
theorem disconnect_fields (s : ServerState) (sock : String) (now : Nat) :
    (disconnect s sock now).1.activePlayers = eraseA s.activePlayers sock ∧
    (disconnect s sock now).1.subs = eraseA s.subs sock := by
  unfold disconnect
  refine ⟨?_, ?_⟩ <;> (repeat' split) <;> rfl

/-- The sweep step as the spec describes it: a stale ActivePlayer is
processed by the full `disconnect` cascade, never by a direct record
deletion. -/
def disconnectSweepStep (now : Nat) (acc : ServerState × List Msg)
    (id : String) : ServerState × List Msg :=
  match lookupA acc.1.activePlayers id with
  | none => acc
  | some p =>
    if now - p.lastActivity > inactivityTimeout then
      ((disconnect acc.1 id now).1, acc.2 ++ (disconnect acc.1 id now).2)
    else acc

/-- The player sweep as pure disconnect cascades over the snapshotted
player keys. -/
def sweepViaDisconnect (s : ServerState) (now : Nat) :
    ServerState × List Msg :=
  (keysA s.activePlayers).foldl (disconnectSweepStep now) (s, [])

theorem sweep_inv_preserved (now : Nat) (acc : ServerState × List Msg)
    (id : String)
    (hA : (keysA acc.1.activePlayers).Nodup)
    (hS : (keysA acc.1.subs).Nodup)
    (hall : acc.1.activePlayers.all
      (fun kv => (lookupA acc.1.subs kv.1).isSome) = true) :
    (keysA (disconnectSweepStep now acc id).1.activePlayers).Nodup ∧
    (keysA (disconnectSweepStep now acc id).1.subs).Nodup ∧
    (disconnectSweepStep now acc id).1.activePlayers.all
      (fun kv => (lookupA (disconnectSweepStep now acc id).1.subs
        kv.1).isSome) = true := by
  cases hlook : lookupA acc.1.activePlayers id with
  | none =>
    simp only [disconnectSweepStep, hlook]
    exact ⟨hA, hS, hall⟩
  | some p =>
    by_cases hstale : now - p.lastActivity > inactivityTimeout
    · simp only [disconnectSweepStep, hlook, if_pos hstale]
      obtain ⟨h1, h2⟩ := disconnect_fields acc.1 id now
      rw [h1, h2]
      refine ⟨nodup_keysA_eraseA _ hA, nodup_keysA_eraseA _ hS, ?_⟩
      rw [List.all_eq_true]
      intro kv hkv
      have hkv0 : kv ∈ acc.1.activePlayers := mem_of_mem_eraseA hkv
      have hs0 := List.all_eq_true.1 hall kv hkv0
      by_cases hid : kv.1 = id
      · exfalso
        have hmm : kv.1 ∈ keysA (eraseA acc.1.activePlayers id) :=
          List.mem_map_of_mem (fun kv2 => kv2.1) hkv
        rw [hid] at hmm
        exact not_mem_keysA_eraseA hA hmm
      · rw [lookupA_eraseA_ne _ hid]
        exact hs0
    · simp only [disconnectSweepStep, hlook, if_neg hstale]
      exact ⟨hA, hS, hall⟩

theorem sweep_aux (now : Nat) (ids : List String) :
    ∀ (acc : ServerState × List Msg),
      (keysA acc.1.activePlayers).Nodup →
      (keysA acc.1.subs).Nodup →
      acc.1.activePlayers.all
        (fun kv => (lookupA acc.1.subs kv.1).isSome) = true →
      ids.foldl (playerSweepStep now) acc =
        ids.foldl (disconnectSweepStep now) acc := by
  induction ids with
  | nil =>
    intro acc _ _ _
    rfl
  | cons id rest ih =>
    intro acc hA hS hall
    rw [List.foldl_cons, List.foldl_cons]
    have hstep : playerSweepStep now acc id = disconnectSweepStep now acc id := by
      cases hlook : lookupA acc.1.activePlayers id with
      | none => simp [playerSweepStep, disconnectSweepStep, hlook]
      | some p =>
        by_cases hstale : now - p.lastActivity > inactivityTimeout
        · have hconn : (lookupA acc.1.subs id).isSome = true :=
            List.all_eq_true.1 hall (id, p) (mem_of_lookupA hlook)
          simp [playerSweepStep, disconnectSweepStep, hlook, hstale, hconn]
        · simp [playerSweepStep, disconnectSweepStep, hlook, hstale]
    rw [hstep]
    obtain ⟨h1, h2, h3⟩ := sweep_inv_preserved now acc id hA hS hall
    exact ih (disconnectSweepStep now acc id) h1 h2 h3

/-- C8: when every ActivePlayer record belongs to a live connection (as in
every reachable server state), the periodic player sweep coincides with
force-disconnecting each stale player through the normal `disconnect`
cascade — room members notified, emptied rooms and categories removed —
and never takes the direct-record-deletion fallback. -/
theorem playerSweep_runs_disconnect_cascade (s : ServerState) (now : Nat)
    (hA : (keysA s.activePlayers).Nodup)
    (hS : (keysA s.subs).Nodup)
    (hlive : s.activePlayers.all
      (fun kv => (lookupA s.subs kv.1).isSome) = true) :
    playerSweep s now = sweepViaDisconnect s now := by
  rw [playerSweep, sweepViaDisconnect]
  exact sweep_aux now (keysA s.activePlayers) (s, []) hA hS hlive

/-- Witness for C8: at time 1900000 both members of `demoState2` are
stale, and the sweep equals the two disconnect cascades. -/
theorem playerSweep_runs_disconnect_cascade_witness :
    playerSweep demoState2 1900000 = sweepViaDisconnect demoState2 1900000 :=
  playerSweep_runs_disconnect_cascade demoState2 1900000
    (by decide) (by decide) (by decide)

/-! ### C6: last-write-wins snapshot merging -/

/-- One snapshot merge of the stateUpdate handler (lines 191-195): spread
the update over the stored snapshot, then stamp `lastActivity` with the
current time. -/
def applySnap (snap : Obj) (u : Obj) (now : Nat) : Obj :=
  insertA (mergeObj snap u) "lastActivity" (Val.nat now)

/-- Iterated snapshot merging over a sequence of (payload, time) updates. -/
def foldSnap (snap : Obj) (us : List (Obj × Nat)) : Obj :=
  us.foldl (fun sn ut => applySnap sn ut.1 ut.2) snap

/-- The spec's wording, as a definition: the value set by the most recent
update that set the key, if any. -/
def lastSet : List Obj → String → Option Val
  | [], _ => none
  | u :: rest, k =>
    match lastSet rest k with
    | some v => some v
    | none => lookupA u k

/-- The spec's last-write-wins prediction for one key: the most recent
update that set it wins, keys never set keep their prior (join-time)
snapshot value. -/
def lwwSpec (snap : Obj) (us : List Obj) (k : String) : Option Val :=
  match lastSet us k with
  | some v => some v
  | none => lookupA snap k

theorem lookupA_mergeObj (b a : Obj) (k : String)
    (hnod : (keysA b).Nodup) :
    lookupA (mergeObj a b) k =
      match lookupA b k with
      | some v => some v
      | none => lookupA a k := by
  induction b generalizing a with
  | nil => simp [mergeObj, lookupA]
  | cons hd tl ih =>
    obtain ⟨k0, v0⟩ := hd
    rw [keysA_cons] at hnod
    have h1 := List.nodup_cons.1 hnod
    have hstep : mergeObj a ((k0, v0) :: tl) = mergeObj (insertA a k0 v0) tl := rfl
    rw [hstep, ih (insertA a k0 v0) h1.2]
    by_cases hk : k0 = k
    · subst hk
      have htl : lookupA tl k0 = none :=
        (lookupA_eq_none_iff tl k0).2 h1.1
      rw [htl, lookupA, if_pos rfl, lookupA_insertA_self]
    · rw [lookupA, if_neg hk]
      cases lookupA tl k with
      | none => rw [lookupA_insertA_ne a v0 (fun hh => hk hh.symm)]
      | some v => rfl

theorem lookupA_applySnap (snap u : Obj) (t : Nat) (k : String)
    (hnod : (keysA u).Nodup) :
    lookupA (applySnap snap u t) k =
      if k = "lastActivity" then some (Val.nat t)
      else
        match lookupA u k with
        | some v => some v
        | none => lookupA snap k := by
  rw [applySnap]
  by_cases hk : k = "lastActivity"
  · subst hk
    rw [if_pos rfl, lookupA_insertA_self]
  · rw [if_neg hk, lookupA_insertA_ne _ _ hk, lookupA_mergeObj u snap k hnod]

/-- The stored snapshot after a sequence of merges agrees with the
last-write-wins prediction on every key other than `lastActivity`. -/
theorem foldSnap_lww (us : List (Obj × Nat)) (snap : Obj) (k : String)
    (hk : k ≠ "lastActivity")
    (hnod : ∀ u ∈ us, (keysA u.1).Nodup) :
    lookupA (foldSnap snap us) k =
      lwwSpec snap (us.map (fun ut => ut.1)) k := by
  induction us generalizing snap with
  | nil => rfl
  | cons ut tl ih =>
    have hstep : foldSnap snap (ut :: tl) =
        foldSnap (applySnap snap ut.1 ut.2) tl := rfl
    rw [hstep, ih (applySnap snap ut.1 ut.2)
      (fun u hu => hnod u (List.mem_cons_of_mem _ hu))]
    rw [lwwSpec, lwwSpec, List.map_cons, lastSet]
    cases lastSet (tl.map (fun ut => ut.1)) k with
    | some v => rfl
    | none =>
      rw [lookupA_applySnap snap ut.1 ut.2 k (hnod ut (List.mem_cons_self ut tl))]
      rw [if_neg hk]

/-- After the final merge of a sequence, the stored `lastActivity` field
carries the time of the most recent update. -/
theorem foldSnap_lastActivity (us : List (Obj × Nat)) (ulast : Obj × Nat)
    (snap : Obj) :
    lookupA (foldSnap snap (us ++ [ulast])) "lastActivity" =
      some (Val.nat ulast.2) := by
  induction us generalizing snap with
  | nil =>
    rw [List.nil_append]
    have hstep : foldSnap snap [ulast] = applySnap snap ulast.1 ulast.2 := rfl
    rw [hstep, applySnap, lookupA_insertA_self]
  | cons ut tl ih =>
    have hstep : foldSnap snap ((ut :: tl) ++ [ulast]) =
        foldSnap (applySnap snap ut.1 ut.2) (tl ++ [ulast]) := rfl
    rw [hstep]
    exact ih (applySnap snap ut.1 ut.2)

/-- A sequence of stateUpdate calls by one member, each addressed to the
member's room. -/
def runUpdates (s : ServerState) (sock rid : String)
    (us : List (Obj × Nat)) : ServerState :=
  us.foldl (fun st ut => (stateUpdate st sock rid ut.1 ut.2).1) s

/-- After each guarded stateUpdate the member's stored snapshot is the
`applySnap` merge; iterated, the stored snapshot after a sequence of
updates is the iterated merge of the join-time snapshot. -/
theorem runUpdates_storedSnap (us : List (Obj × Nat)) :
    ∀ (s : ServerState) (sock rid gid : String) (p : ActivePlayer)
      (cat : List (String × Room)) (room : Room) (snap : Obj),
      lookupA s.activePlayers sock = some p →
      p.roomId = some rid → rid ≠ "" → p.gameId = some gid →
      lookupA s.gameRooms gid = some cat →
      lookupA cat rid = some room →
      lookupA room.players sock = some snap →
      storedSnap (runUpdates s sock rid us) gid rid sock =
        some (foldSnap snap us) := by
  induction us with
  | nil =>
    intro s sock rid gid p cat room snap hp hr hne hg hcat hroom hsnap
    simp only [runUpdates, List.foldl_nil, storedSnap, roomPlayers,
      lookupRoom, hcat, hroom, foldSnap]
    exact hsnap
  | cons ut tl ih =>
    intro s sock rid gid p cat room snap hp hr hne hg hcat hroom hsnap
    have hs2ap : lookupA (stateUpdate s sock rid ut.1 ut.2).1.activePlayers
        sock = some { p with roomId := some rid, lastActivity := ut.2 } := by
      simp only [stateUpdate, hp, hr, if_neg hne]
      rw [lookupA_modifyA_self, hp, Option.map_some', hr]
    have hs2gr : (stateUpdate s sock rid ut.1 ut.2).1.gameRooms =
        insertA s.gameRooms gid (insertA cat rid
          { room with
            lastActivity := ut.2,
            players := insertA room.players sock
              (applySnap snap ut.1 ut.2) }) := by
      simp only [stateUpdate, hp, hr, if_neg hne, hg, hcat, hroom, hsnap]
      rfl
    have hmain := ih (stateUpdate s sock rid ut.1 ut.2).1 sock rid gid
      { p with roomId := some rid, lastActivity := ut.2 }
      (insertA cat rid
        { room with
          lastActivity := ut.2,
          players := insertA room.players sock (applySnap snap ut.1 ut.2) })
      { room with
        lastActivity := ut.2,
        players := insertA room.players sock (applySnap snap ut.1 ut.2) }
      (applySnap snap ut.1 ut.2)
      hs2ap rfl hne hg
      (by rw [hs2gr]; exact lookupA_insertA_self _ _ _)
      (lookupA_insertA_self _ _ _)
      (lookupA_insertA_self _ _ _)
    exact hmain

/-- C6 as stated is false at a concrete input: member `"A"` of
`demoState2` sends one stateUpdate whose payload sets the key
`"lastActivity"` to the string `"x"`; pure per-key last-write-wins would
store `"x"`, but the handler overwrites that key with the server time
200, so the stored snapshot disagrees with the last-write-wins prediction
at the key `"lastActivity"`. -/
theorem lww_counterexample :
    storedSnap (stateUpdate demoState2 "A" "R1"
        [("lastActivity", Val.str "x")] 200).1 "demo" "R1" "A" =
      some [("id", Val.str "A"), ("joinedAt", Val.nat 100),
            ("lastActivity", Val.nat 200)] ∧
    lwwSpec [("id", Val.str "A"), ("joinedAt", Val.nat 100),
             ("lastActivity", Val.nat 100)]
      [[("lastActivity", Val.str "x")]] "lastActivity" =
      some (Val.str "x") ∧
    lookupA [("id", Val.str "A"), ("joinedAt", Val.nat 100),
             ("lastActivity", Val.nat 200)] "lastActivity" ≠
      some (Val.str "x") := by
  refine ⟨by decide, by decide, by decide⟩

/-- C6, amended: for a member of a room sending a (nonempty) sequence of
stateUpdates addressed to its room, the stored PlayerSnapshot after the
sequence is the iterated shallow merge of the join-time snapshot with the
update payloads; on every key other than `lastActivity` it equals the
last-write-wins prediction — the most recent update that set the key
wins, keys never set keep their join-time value — while the
`lastActivity` key always carries the server-side time of the most recent
update instead of any client-supplied value. -/
theorem stateUpdate_last_write_wins (s : ServerState)
    (sock rid gid k : String) (us0 : List (Obj × Nat)) (ulast : Obj × Nat)
    (p : ActivePlayer) (cat : List (String × Room)) (room : Room)
    (snap : Obj)
    (hp : lookupA s.activePlayers sock = some p)
    (hr : p.roomId = some rid) (hne : rid ≠ "") (hg : p.gameId = some gid)
    (hcat : lookupA s.gameRooms gid = some cat)
    (hroom : lookupA cat rid = some room)
    (hsnap : lookupA room.players sock = some snap)
    (hk : k ≠ "lastActivity")
    (hnod : ∀ u ∈ us0 ++ [ulast], (keysA u.1).Nodup) :
    storedSnap (runUpdates s sock rid (us0 ++ [ulast])) gid rid sock =
      some (foldSnap snap (us0 ++ [ulast])) ∧
    lookupA (foldSnap snap (us0 ++ [ulast])) k =
      lwwSpec snap ((us0 ++ [ulast]).map (fun ut => ut.1)) k ∧
    lookupA (foldSnap snap (us0 ++ [ulast])) "lastActivity" =
      some (Val.nat ulast.2) :=
  ⟨runUpdates_storedSnap (us0 ++ [ulast]) s sock rid gid p cat room snap
      hp hr hne hg hcat hroom hsnap,
   foldSnap_lww (us0 ++ [ulast]) snap k hk hnod,
   foldSnap_lastActivity us0 ulast snap⟩

/-- Witness for C6 (amended): `"A"` sends two updates — `x:1, y:2` at
time 200 and `y:3` at time 300 — and the stored snapshot is the iterated
merge, agreeing with last-write-wins at the key `"y"` and carrying the
time 300 under `lastActivity`. -/
theorem stateUpdate_last_write_wins_witness :
    storedSnap (runUpdates demoState2 "A" "R1"
        ([([("x", Val.nat 1), ("y", Val.nat 2)], 200)] ++
          [([("y", Val.nat 3)], 300)])) "demo" "R1" "A" =
      some (foldSnap
        [("id", Val.str "A"), ("joinedAt", Val.nat 100),
         ("lastActivity", Val.nat 100)]
        ([([("x", Val.nat 1), ("y", Val.nat 2)], 200)] ++
          [([("y", Val.nat 3)], 300)])) ∧
    lookupA (foldSnap
        [("id", Val.str "A"), ("joinedAt", Val.nat 100),
         ("lastActivity", Val.nat 100)]
        ([([("x", Val.nat 1), ("y", Val.nat 2)], 200)] ++
          [([("y", Val.nat 3)], 300)])) "y" =
      lwwSpec
        [("id", Val.str "A"), ("joinedAt", Val.nat 100),
         ("lastActivity", Val.nat 100)]
        (([([("x", Val.nat 1), ("y", Val.nat 2)], 200)] ++
          [([("y", Val.nat 3)], 300)]).map
            (fun ut : Obj × Nat => ut.1)) "y" ∧
    lookupA (foldSnap
        [("id", Val.str "A"), ("joinedAt", Val.nat 100),
         ("lastActivity", Val.nat 100)]
        ([([("x", Val.nat 1), ("y", Val.nat 2)], 200)] ++
          [([("y", Val.nat 3)], 300)])) "lastActivity" =
      some (Val.nat 300) :=
  stateUpdate_last_write_wins demoState2 "A" "R1" "demo" "y"
    [([("x", Val.nat 1), ("y", Val.nat 2)], 200)] ([("y", Val.nat 3)], 300)
    { id := "A", roomId := some "R1", gameId := some "demo",
      joinedAt := 100, lastActivity := 100 }
    demoCatR1 demoRoomR1
    [("id", Val.str "A"), ("joinedAt", Val.nat 100),
     ("lastActivity", Val.nat 100)]
    (by decide) (by decide) (by decide) (by decide) (by decide) (by decide)
    (by decide) (by decide) (by decide)

end UniversalServer
